import Mathlib

set_option maxHeartbeats 1000000

/-!
Shallow embedding of the seat booking service of this repository:
`src/services/booking/main.py` together with the data model of
`src/shared/database/models.py`.

Time is modelled as natural-number seconds (`now`).  The Redis lock store
is an association list of entries `(key, owner, expiresAt)`; an entry is
live at time `now` iff `now < expiresAt`, matching Redis TTL semantics of
`SET key value NX EX 300`.  The relational store is a pair of lists of
rows (seats and bookings); an ORM mutation of a fetched row is modelled
as an update-by-primary-key of the corresponding list, and `db.commit`
as the resulting state becoming the new state.  Each HTTP handler is a
pure function from the pre-state (plus request arguments and the clock)
to a response, the list of websocket broadcasts it emits, and the
post-state; a raised `HTTPException` is the `httpError` response with
the pre-state unchanged.
-/

/-- `SeatStatus` enum of `models.py`. -/
inductive SeatStatus
  | available
  | held
  | booked
deriving DecidableEq, Repr

/-- `BookingStatus` enum of `models.py`. -/
inductive BookingStatus
  | pending
  | confirmed
  | cancelled
deriving DecidableEq, Repr

/-- A row of the `seats` table (`models.py`). -/
structure Seat where
  id : Nat
  event_id : Nat
  seat_number : String
  status : SeatStatus
  hold_expiry : Option Nat
deriving DecidableEq, Repr

/-- A row of the `bookings` table (`models.py`). -/
structure Booking where
  id : Nat
  user_id : Nat
  event_id : Nat
  seat_id : Nat
  status : BookingStatus
  created_at : Nat
deriving DecidableEq, Repr

/-- One Redis key `seat_lock:<key>` holding the owner user id, with the
absolute expiry time set by `EX`. -/
structure LockEntry where
  key : Nat
  owner : Nat
  expiresAt : Nat
deriving DecidableEq, Repr

/-- The full mutable state the booking service acts on: the two relevant
database tables and the Redis lock keys. -/
structure BookingState where
  seats : List Seat
  bookings : List Booking
  locks : List LockEntry
deriving DecidableEq, Repr

/-- A `seat_update` message broadcast to the websocket observers of an
event (`manager.broadcast_to_event`). -/
structure Broadcast where
  event_id : Nat
  seat_id : Nat
  seat_number : String
  status : SeatStatus
  user_id : Option Nat
deriving DecidableEq, Repr

/-- `redis.get(f"seat_lock:{k}")`: the owner of the lock on seat `k`,
provided the entry is still live at time `now`. -/
def redisGet (locks : List LockEntry) (now k : Nat) : Option Nat :=
  match locks.find? (fun e => e.key == k && decide (now < e.expiresAt)) with
  | some e => some e.owner
  | none => none

/-- `redis.set(key, owner, nx=True, ex=300)`: atomic check-and-set.
Succeeds iff no live entry for `k` exists; on success the key holds
`owner` for 300 seconds.  Returns the success flag and the new store. -/
def redisSetNX (locks : List LockEntry) (now k owner : Nat) :
    Bool × List LockEntry :=
  if (redisGet locks now k).isSome then
    (false, locks)
  else
    (true, ⟨k, owner, now + 300⟩ :: locks.filter (fun e => e.key != k))

/-- `redis.delete(f"seat_lock:{k}")`: unconditional removal of the key. -/
def redisDelete (locks : List LockEntry) (k : Nat) : List LockEntry :=
  locks.filter (fun e => e.key != k)

/-- `redis.exists(f"seat_lock:{k}")` at time `now`. -/
def redisExists (locks : List LockEntry) (now k : Nat) : Bool :=
  (redisGet locks now k).isSome

/-- `redis.ttl(f"seat_lock:{k}")` at time `now` (0 when absent). -/
def redisTTL (locks : List LockEntry) (now k : Nat) : Nat :=
  match locks.find? (fun e => e.key == k && decide (now < e.expiresAt)) with
  | some e => e.expiresAt - now
  | none => 0

/-- `db.query(Seat).filter(Seat.id == sid).first()`. -/
def seatGet (seats : List Seat) (sid : Nat) : Option Seat :=
  seats.find? (fun s => s.id == sid)

/-- ORM mutation of the seat row with primary key `sid`. -/
def updateSeat (seats : List Seat) (sid : Nat) (f : Seat → Seat) :
    List Seat :=
  seats.map (fun s => if s.id == sid then f s else s)

/-- Well-formedness delivered by the database: primary keys are unique. -/
def WFState (σ : BookingState) : Prop :=
  (σ.seats.map Seat.id).Nodup ∧ (σ.bookings.map Booking.id).Nodup

/-- Response of the `/hold` endpoint: either a raised `HTTPException`
(status code and detail) or a `SeatHoldResponse`. -/
inductive HoldOut
  | httpError (code : Nat) (detail : String)
  | resp (success : Bool) (message : String) (seat_id : Nat)
      (hold_expires_at : Option Nat)
deriving DecidableEq, Repr

/-- `POST /hold` (`hold_seat` in `main.py`): hold a single seat. -/
def hold_seat (σ : BookingState) (event_id seat_id user now : Nat) :
    HoldOut × List Broadcast × BookingState :=
  match seatGet σ.seats seat_id with
  | none => (.httpError 404 "Seat not found", [], σ)
  | some seat =>
    if seat.event_id ≠ event_id then
      (.httpError 400 "Seat does not belong to this event", [], σ)
    else
      let acq := redisSetNX σ.locks now seat_id user
      if acq.1 then
        let expiry := now + 5 * 60
        let seats2 := updateSeat σ.seats seat_id
          (fun s => { s with status := .held, hold_expiry := some expiry })
        (.resp true "Seat successfully held for 5 minutes" seat_id
            (some expiry),
          [⟨event_id, seat_id, seat.seat_number, .held, some user⟩],
          { σ with seats := seats2, locks := acq.2 })
      else
        match redisGet σ.locks now seat_id with
        | some holder =>
          if holder = user then
            (.resp true "You already have this seat on hold" seat_id
                (some (now + redisTTL σ.locks now seat_id)), [], σ)
          else
            (.resp false "This seat is currently held by another user"
                seat_id none, [], σ)
        | none =>
          (.resp false "This seat is currently held by another user"
              seat_id none, [], σ)

/-- A seat that failed the lock-acquisition pass of `/hold-multiple`:
the dictionary appended to `failed_seats`. -/
structure FailedSeat where
  seat_id : Nat
  seat_number : String
  reason : String
deriving DecidableEq, Repr

/-- Response of the `/hold-multiple` endpoint. -/
inductive MultiHoldOut
  | httpError (code : Nat) (detail : String)
  | resp (success : Bool) (message : String) (held_seats : List Nat)
      (failed_seats : List FailedSeat) (hold_expires_at : Option Nat)
deriving DecidableEq, Repr

/-- The `for seat in seats` lock-acquisition pass of `hold_multiple_seats`:
returns `acquired_locks`, `failed_seats` and the Redis store after the
pass, in iteration order. -/
def acquireLoop (now user : Nat) :
    List Seat → List LockEntry → List Nat × List FailedSeat × List LockEntry
  | [], locks => ([], [], locks)
  | seat :: rest, locks =>
    let acq := redisSetNX locks now seat.id user
    if acq.1 then
      let r := acquireLoop now user rest acq.2
      (seat.id :: r.1, r.2.1, r.2.2)
    else
      match redisGet locks now seat.id with
      | some holder =>
        if holder = user then
          let r := acquireLoop now user rest locks
          (seat.id :: r.1, r.2.1, r.2.2)
        else
          let r := acquireLoop now user rest locks
          (r.1, ⟨seat.id, seat.seat_number, "Already held by another user"⟩
            :: r.2.1, r.2.2)
      | none =>
        let r := acquireLoop now user rest locks
        (r.1, ⟨seat.id, seat.seat_number, "Already held by another user"⟩
          :: r.2.1, r.2.2)

/-- The rollback pass of `hold_multiple_seats`: for every
`seat_id in acquired_locks`, delete its lock unless the id occurs among
the failed seats. -/
def rollbackLocks (acquired failedIds : List Nat)
    (locks : List LockEntry) : List LockEntry :=
  acquired.foldl
    (fun l sid => if failedIds.contains sid then l else redisDelete l sid)
    locks

/-- `POST /hold-multiple` (`hold_multiple_seats` in `main.py`). -/
def hold_multiple_seats (σ : BookingState) (event_id : Nat)
    (seat_ids : List Nat) (user now : Nat) :
    MultiHoldOut × List Broadcast × BookingState :=
  if seat_ids.isEmpty then
    (.httpError 400 "No seats provided", [], σ)
  else if seat_ids.length > 10 then
    (.httpError 400 "Cannot hold more than 10 seats at once", [], σ)
  else
    let seats := σ.seats.filter (fun s => seat_ids.contains s.id)
    if seats.length ≠ seat_ids.length then
      (.httpError 404 "One or more seats not found", [], σ)
    else
      let event_ids := (seats.map Seat.event_id).dedup
      if event_ids.length > 1 then
        (.httpError 400 "All seats must belong to the same event", [], σ)
      else if ¬ event_ids.contains event_id then
        (.httpError 400 "Seats do not belong to specified event", [], σ)
      else
        let r := acquireLoop now user seats σ.locks
        if ¬ r.2.1.isEmpty then
          let locks2 := rollbackLocks r.1 (r.2.1.map FailedSeat.seat_id) r.2.2
          (.resp false
              ("Failed to hold " ++ toString r.2.1.length ++
                " seat(s). All locks released.")
              [] r.2.1 none, [], { σ with locks := locks2 })
        else
          let expiry := now + 5 * 60
          let seats2 := σ.seats.map (fun s =>
            if seat_ids.contains s.id then
              { s with status := .held, hold_expiry := some expiry }
            else s)
          let bcasts := seats.map
            (fun s => ⟨event_id, s.id, s.seat_number, .held, some user⟩)
          (.resp true
              ("Successfully held " ++ toString r.1.length ++
                " seat(s) for 5 minutes")
              r.1 [] (some expiry), bcasts,
            { σ with seats := seats2, locks := r.2.2 })

/-- The next autoincremented primary key for the `bookings` table. -/
def nextBookingId (bs : List Booking) : Nat :=
  (bs.map Booking.id).foldl max 0 + 1

/-- Outcome of processing one seat id inside the `/confirm` or
`/release` loop: the (mutated) seat row on success, or the id appended
to `failed_seats`. -/
inductive LoopStepRes
  | ok (seat : Seat)
  | failed (sid : Nat)
deriving DecidableEq, Repr

/-- One iteration of the `for seat_id in request.seat_ids` loop of
`confirm_booking`. -/
def confirmStep (user now : Nat) (σ : BookingState) (sid : Nat) :
    BookingState × LoopStepRes :=
  match redisGet σ.locks now sid with
  | some holder =>
    if holder = user then
      match seatGet σ.seats sid with
      | none => (σ, .failed sid)
      | some seat =>
        ({ seats := updateSeat σ.seats sid
              (fun s => { s with status := .booked, hold_expiry := none }),
           bookings := σ.bookings ++
              [⟨nextBookingId σ.bookings, user, seat.event_id, sid,
                .confirmed, now⟩],
           locks := redisDelete σ.locks sid },
          .ok { seat with status := .booked, hold_expiry := none })
    else (σ, .failed sid)
  | none => (σ, .failed sid)

/-- The whole `/confirm` loop: final state, `confirmed_bookings` seats
and `failed_seats` ids, in iteration order. -/
def confirmLoop (user now : Nat) :
    List Nat → BookingState → BookingState × List Seat × List Nat
  | [], σ => (σ, [], [])
  | sid :: rest, σ =>
    let st := confirmStep user now σ sid
    let r := confirmLoop user now rest st.1
    match st.2 with
    | .ok seat => (r.1, seat :: r.2.1, r.2.2)
    | .failed s => (r.1, r.2.1, s :: r.2.2)

/-- Response of the `/confirm` endpoint. -/
inductive ConfirmOut
  | httpError (code : Nat) (detail : String)
  | resp (success : Bool) (message : String) (confirmed_seats : List Nat)
      (failed_seats : List Nat)
deriving DecidableEq, Repr

/-- `POST /confirm` (`confirm_booking` in `main.py`). -/
def confirm_booking (σ : BookingState) (seat_ids : List Nat)
    (user now : Nat) : ConfirmOut × List Broadcast × BookingState :=
  if seat_ids.isEmpty then (.httpError 400 "No seats provided", [], σ)
  else
    let r := confirmLoop user now seat_ids σ
    let bcasts := r.2.1.map
      (fun s => ⟨s.event_id, s.id, s.seat_number, .booked, some user⟩)
    if ¬ r.2.2.isEmpty then
      (.resp false
          ("Confirmed " ++ toString r.2.1.length ++ " seat(s), failed " ++
            toString r.2.2.length)
          (r.2.1.map Seat.id) r.2.2, bcasts, r.1)
    else
      (.resp true
          ("Successfully confirmed " ++ toString r.2.1.length ++
            " booking(s)")
          (r.2.1.map Seat.id) [], bcasts, r.1)

/-- One iteration of the `for seat_id in seat_ids` loop of
`release_seats`. -/
def releaseStep (user now : Nat) (σ : BookingState) (sid : Nat) :
    BookingState × LoopStepRes :=
  match redisGet σ.locks now sid with
  | some holder =>
    if holder = user then
      match seatGet σ.seats sid with
      | none => (σ, .failed sid)
      | some seat =>
        ({ σ with
            seats := updateSeat σ.seats sid
              (fun s => { s with status := .available, hold_expiry := none }),
            locks := redisDelete σ.locks sid },
          .ok { seat with status := .available, hold_expiry := none })
    else (σ, .failed sid)
  | none => (σ, .failed sid)

/-- The whole `/release` loop. -/
def releaseLoop (user now : Nat) :
    List Nat → BookingState → BookingState × List Seat × List Nat
  | [], σ => (σ, [], [])
  | sid :: rest, σ =>
    let st := releaseStep user now σ sid
    let r := releaseLoop user now rest st.1
    match st.2 with
    | .ok seat => (r.1, seat :: r.2.1, r.2.2)
    | .failed s => (r.1, r.2.1, s :: r.2.2)

/-- Response of the `/release` endpoint. -/
inductive ReleaseOut
  | resp (success : Bool) (message : String) (released_seats : List Nat)
      (failed_seats : List Nat)
deriving DecidableEq, Repr

/-- `POST /release` (`release_seats` in `main.py`). -/
def release_seats (σ : BookingState) (seat_ids : List Nat)
    (user now : Nat) : ReleaseOut × List Broadcast × BookingState :=
  let r := releaseLoop user now seat_ids σ
  let bcasts := r.2.1.map
    (fun s => ⟨s.event_id, s.id, s.seat_number, .available, none⟩)
  (.resp true ("Released " ++ toString r.2.1.length ++ " seat(s)")
      (r.2.1.map Seat.id) r.2.2, bcasts, r.1)

/-- Response of the `/cancel-booking/{booking_id}` endpoint. -/
inductive CancelOut
  | httpError (code : Nat) (detail : String)
  | resp (success : Bool) (message : String) (booking_id : Nat)
deriving DecidableEq, Repr

/-- `POST /cancel-booking/{booking_id}` (`cancel_booking` in `main.py`). -/
def cancel_booking (σ : BookingState) (booking_id user : Nat) :
    CancelOut × List Broadcast × BookingState :=
  match σ.bookings.find?
      (fun b => b.id == booking_id && b.user_id == user) with
  | none => (.httpError 404 "Booking not found", [], σ)
  | some booking =>
    if booking.status = .cancelled then
      (.httpError 400 "Booking already cancelled", [], σ)
    else
      match seatGet σ.seats booking.seat_id with
      | none => (.httpError 404 "Seat not found", [], σ)
      | some seat =>
        let bookings2 := σ.bookings.map (fun b =>
          if b.id == booking.id then { b with status := .cancelled } else b)
        let seats2 := updateSeat σ.seats booking.seat_id
          (fun s => { s with status := .available, hold_expiry := none })
        (.resp true "Booking cancelled successfully" booking_id,
          [⟨seat.event_id, seat.id, seat.seat_number, .available, none⟩],
          { σ with seats := seats2, bookings := bookings2 })

/-- The filter `status == held AND hold_expiry < now` of the reaper
query (an SQL comparison against NULL is not satisfied). -/
def expiredHeld (now : Nat) (s : Seat) : Bool :=
  s.status == .held &&
    (match s.hold_expiry with
     | some t => decide (t < now)
     | none => false)

/-- The reaper reclaims a seat iff it matched the expired query and no
live lock entry exists for it. -/
def reclaimable (locks : List LockEntry) (now : Nat) (s : Seat) : Bool :=
  expiredHeld now s && !(redisExists locks now s.id)

/-- One cycle of the background task `cleanup_expired_holds`:
the broadcasts it emits and the committed state. -/
def cleanup_cycle (σ : BookingState) (now : Nat) :
    List Broadcast × BookingState :=
  let bcasts := (σ.seats.filter (reclaimable σ.locks now)).map
    (fun s => ⟨s.event_id, s.id, s.seat_number, .available, none⟩)
  let seats2 := σ.seats.map (fun s =>
    if reclaimable σ.locks now s then
      { s with status := .available, hold_expiry := none }
    else s)
  (bcasts, { σ with seats := seats2 })

/-- A single invocation of one of the state-mutating operations of the
service (the orchestrator endpoints and one reaper cycle), with its
arguments. -/
inductive Op
  | hold (event_id seat_id user now : Nat)
  | holdMultiple (event_id : Nat) (seat_ids : List Nat) (user now : Nat)
  | confirm (seat_ids : List Nat) (user now : Nat)
  | release (seat_ids : List Nat) (user now : Nat)
  | cancel (booking_id user : Nat)
  | reap (now : Nat)
deriving DecidableEq, Repr

/-- The post-state of running one operation. -/
def applyOp (σ : BookingState) : Op → BookingState
  | .hold event_id seat_id user now =>
    (hold_seat σ event_id seat_id user now).2.2
  | .holdMultiple event_id seat_ids user now =>
    (hold_multiple_seats σ event_id seat_ids user now).2.2
  | .confirm seat_ids user now => (confirm_booking σ seat_ids user now).2.2
  | .release seat_ids user now => (release_seats σ seat_ids user now).2.2
  | .cancel booking_id user => (cancel_booking σ booking_id user).2.2
  | .reap now => (cleanup_cycle σ now).2

/-- The documented invariant on a single seat row: a booked seat has no
`hold_expiry`, a held seat has one. -/
def SeatInv (s : Seat) : Prop :=
  (s.status = .booked → s.hold_expiry = none) ∧
    (s.status = .held → s.hold_expiry ≠ none)

/-- `SeatInv` for every row of the `seats` table. -/
def StateInv (σ : BookingState) : Prop :=
  ∀ s ∈ σ.seats, SeatInv s

instance (s : Seat) : Decidable (SeatInv s) := by
  unfold SeatInv; infer_instance

instance (σ : BookingState) : Decidable (StateInv σ) := by
  unfold StateInv; infer_instance

/-- A sequence of `/hold` requests for the same seat of the same event,
one per user in the list, executed back to back at time `now`: the list
of responses and the final state. -/
def holdRun (event_id seat_id now : Nat) :
    List Nat → BookingState → List HoldOut × BookingState
  | [], σ => ([], σ)
  | u :: us, σ =>
    let r := hold_seat σ event_id seat_id u now
    let rest := holdRun event_id seat_id now us r.2.2
    (r.1 :: rest.1, rest.2)

/-- Recognises the response of a fresh lock acquisition by `/hold`
(as opposed to the idempotent already-held success). -/
def isFreshHold (o : HoldOut) : Bool :=
  match o with
  | .resp _ m _ _ => m == "Seat successfully held for 5 minutes"
  | _ => false

/-- The conflict response of `/hold`. -/
def conflictHold (seat_id : Nat) : HoldOut :=
  .resp false "This seat is currently held by another user" seat_id none

/-! ### Generic lemmas about the lock store and the seats table -/

theorem find?_filter_keep (p q : LockEntry → Bool) (locks : List LockEntry)
    (h : ∀ e, q e = false → p e = false) :
    (locks.filter q).find? p = locks.find? p := by
  induction locks with
  | nil => rfl
  | cons e rest ih =>
    cases hq : q e with
    | false =>
      rw [List.filter_cons_of_neg (by simp [hq]),
        List.find?_cons_of_neg _ (by simp [h e hq]), ih]
    | true =>
      cases hp : p e with
      | true =>
        rw [List.filter_cons_of_pos (by simp [hq]),
          List.find?_cons_of_pos _ hp, List.find?_cons_of_pos _ hp]
      | false =>
        rw [List.filter_cons_of_pos (by simp [hq]),
          List.find?_cons_of_neg _ (by simp [hp]),
          List.find?_cons_of_neg _ (by simp [hp]), ih]

theorem find?_filter_none (p q : LockEntry → Bool) (locks : List LockEntry)
    (h : ∀ e, q e = true → p e = false) :
    (locks.filter q).find? p = none := by
  induction locks with
  | nil => rfl
  | cons e rest ih =>
    cases hq : q e with
    | false => rw [List.filter_cons_of_neg (by simp [hq]), ih]
    | true =>
      rw [List.filter_cons_of_pos (by simp [hq]),
        List.find?_cons_of_neg _ (by simp [h e hq]), ih]

theorem redisGet_cons_live (locks : List LockEntry) (now k o t : Nat)
    (h : now < t) :
    redisGet (⟨k, o, t⟩ :: locks) now k = some o := by
  unfold redisGet
  rw [List.find?_cons_of_pos _ (by simp [h])]

theorem redisGet_cons_ne (locks : List LockEntry) (now k k2 o t : Nat)
    (h : k2 ≠ k) :
    redisGet (⟨k, o, t⟩ :: locks) now k2 = redisGet locks now k2 := by
  unfold redisGet
  rw [List.find?_cons_of_neg _ (by simp; intro hk; exact absurd hk.symm h)]

theorem redisGet_filter_ne (locks : List LockEntry) (now k k2 : Nat)
    (h : k2 ≠ k) :
    redisGet (locks.filter (fun e => e.key != k)) now k2 =
      redisGet locks now k2 := by
  unfold redisGet
  rw [find?_filter_keep]
  intro e he
  have he2 : e.key = k := by
    by_contra hne
    simp [bne_iff_ne, hne] at he
  simp only [Bool.and_eq_false_imp, decide_eq_false_iff_not]
  intro hk
  rw [beq_iff_eq] at hk
  exact absurd (he2 ▸ hk).symm h

theorem redisGet_delete_self (locks : List LockEntry) (now k : Nat) :
    redisGet (redisDelete locks k) now k = none := by
  unfold redisDelete redisGet
  have hcond : ∀ e : LockEntry, (e.key != k) = true →
      (e.key == k && decide (now < e.expiresAt)) = false := by
    intro e he
    simp only [bne_iff_ne, ne_eq] at he
    simp [he]
  rw [find?_filter_none _ _ _ hcond]

theorem redisGet_delete_ne (locks : List LockEntry) (now k k2 : Nat)
    (h : k2 ≠ k) :
    redisGet (redisDelete locks k) now k2 = redisGet locks now k2 :=
  redisGet_filter_ne locks now k k2 h

theorem redisSetNX_of_none (locks : List LockEntry) (now k o : Nat)
    (h : redisGet locks now k = none) :
    redisSetNX locks now k o =
      (true, ⟨k, o, now + 300⟩ :: locks.filter (fun e => e.key != k)) := by
  simp [redisSetNX, h]

theorem redisSetNX_of_some (locks : List LockEntry) (now k o w : Nat)
    (h : redisGet locks now k = some w) :
    redisSetNX locks now k o = (false, locks) := by
  simp [redisSetNX, h]

theorem seatGet_updateSeat_self (seats : List Seat) (sid : Nat)
    (f : Seat → Seat) (hf : ∀ s, (f s).id = s.id) :
    seatGet (updateSeat seats sid f) sid = (seatGet seats sid).map f := by
  induction seats with
  | nil => rfl
  | cons s rest ih =>
    unfold updateSeat seatGet at *
    by_cases h : s.id = sid
    · rw [List.map_cons, if_pos (by simp [h]),
        List.find?_cons_of_pos _ (by simp [hf, h]),
        List.find?_cons_of_pos _ (by simp [h])]
      rfl
    · rw [List.map_cons, if_neg (by simp [h]),
        List.find?_cons_of_neg _ (by simp [h]),
        List.find?_cons_of_neg _ (by simp [h]), ih]

theorem seatGet_updateSeat_ne (seats : List Seat) (sid sid2 : Nat)
    (f : Seat → Seat) (hf : ∀ s, (f s).id = s.id) (h : sid2 ≠ sid) :
    seatGet (updateSeat seats sid f) sid2 = seatGet seats sid2 := by
  induction seats with
  | nil => rfl
  | cons s rest ih =>
    unfold updateSeat seatGet at *
    by_cases hs : s.id = sid
    · rw [List.map_cons, if_pos (by simp [hs]),
        List.find?_cons_of_neg _
          (by simp [hf, hs]; intro hk; exact absurd hk.symm h),
        List.find?_cons_of_neg _
          (by simp [hs]; intro hk; exact absurd hk.symm h), ih]
    · by_cases hs2 : s.id = sid2
      · rw [List.map_cons, if_neg (by simp [hs]),
          List.find?_cons_of_pos _ (by simp [hs2]),
          List.find?_cons_of_pos _ (by simp [hs2])]
      · rw [List.map_cons, if_neg (by simp [hs]),
          List.find?_cons_of_neg _ (by simp [hs2]),
          List.find?_cons_of_neg _ (by simp [hs2]), ih]

/-! ### Claim theorems -/

/-- C2 (failing evaluation): in a `/hold-multiple` call by user 5 for
seats `[1, 2]` where user 5 already holds a pre-existing lock on seat 1
and user 9 holds the lock on seat 2, the rollback deletes the
pre-existing lock of the calling principal on seat 1 (its exclusion test
compares against the failed seats, which are disjoint from the acquired
ones), while the claim requires that lock to be left intact.  Statuses
are indeed not mutated and the failure is reported with reasons. -/
theorem holdMultiple_rollback_drops_preexisting_lock :
    redisGet ([⟨1, 5, 1000⟩, ⟨2, 9, 1000⟩] : List LockEntry) 100 1 =
        some 5 ∧
    (hold_multiple_seats
        ⟨[⟨1, 7, "A1", .held, some 500⟩, ⟨2, 7, "A2", .held, some 900⟩],
          [], [⟨1, 5, 1000⟩, ⟨2, 9, 1000⟩]⟩ 7 [1, 2] 5 100).1 =
      .resp false "Failed to hold 1 seat(s). All locks released." []
        [⟨2, "A2", "Already held by another user"⟩] none ∧
    redisGet (hold_multiple_seats
        ⟨[⟨1, 7, "A1", .held, some 500⟩, ⟨2, 7, "A2", .held, some 900⟩],
          [], [⟨1, 5, 1000⟩, ⟨2, 9, 1000⟩]⟩ 7 [1, 2] 5 100).2.2.locks
        100 1 = none ∧
    (hold_multiple_seats
        ⟨[⟨1, 7, "A1", .held, some 500⟩, ⟨2, 7, "A2", .held, some 900⟩],
          [], [⟨1, 5, 1000⟩, ⟨2, 9, 1000⟩]⟩ 7 [1, 2] 5 100).2.2.seats =
      [⟨1, 7, "A1", .held, some 500⟩, ⟨2, 7, "A2", .held, some 900⟩] := by
  decide

/-- C3 (failing evaluation): `/hold` never inspects the persisted seat
status, so a seat whose status is `booked` (and whose lock was released
by `/confirm`) is freshly lockable by any principal and transitions
`booked → held`, violating the claimed per-seat state machine. -/
theorem hold_seat_books_over_booked :
    (seatGet ([⟨3, 7, "A1", .booked, none⟩] : List Seat) 3).map
        Seat.status = some .booked ∧
    (hold_seat ⟨[⟨3, 7, "A1", .booked, none⟩], [], []⟩ 7 3 5 100).1 =
      .resp true "Seat successfully held for 5 minutes" 3 (some 400) ∧
    (seatGet (hold_seat ⟨[⟨3, 7, "A1", .booked, none⟩], [], []⟩
        7 3 5 100).2.2.seats 3).map Seat.status = some .held := by
  decide

/-- C10 (counterexample to the claim as stated): a seat-id list of
eleven copies of the existing seat 3 contains a duplicate, yet the call
fails with the 400 seat-count validation error, not with the NotFound
error the claim promises for every duplicate-containing call. -/
theorem holdMultiple_duplicates_over_ten_not_404 :
    ¬ (List.replicate 11 3).Nodup ∧
    (seatGet ([⟨3, 7, "A1", .available, none⟩] : List Seat) 3).isSome =
        true ∧
    (hold_multiple_seats ⟨[⟨3, 7, "A1", .available, none⟩], [], []⟩ 7
        (List.replicate 11 3) 1 0).1 =
      .httpError 400 "Cannot hold more than 10 seats at once" := by
  decide

theorem fetched_length_lt_of_dup (σ : BookingState) (ids : List Nat)
    (hwf : (σ.seats.map Seat.id).Nodup) (hdup : ¬ ids.Nodup) :
    (σ.seats.filter (fun s => ids.contains s.id)).length < ids.length := by
  set fetched := σ.seats.filter (fun s => ids.contains s.id) with hf
  have hsub : List.Sublist (fetched.map Seat.id) (σ.seats.map Seat.id) :=
    (List.filter_sublist σ.seats).map Seat.id
  have hnd : (fetched.map Seat.id).Nodup := hwf.sublist hsub
  have hmem : ∀ x ∈ fetched.map Seat.id, x ∈ ids := by
    intro x hx
    rw [List.mem_map] at hx
    obtain ⟨s, hs, rfl⟩ := hx
    rw [hf, List.mem_filter] at hs
    simpa using hs.2
  have hcard : (fetched.map Seat.id).toFinset.card ≤ ids.toFinset.card :=
    Finset.card_le_card (by
      intro x hx
      rw [List.mem_toFinset] at hx
      rw [List.mem_toFinset]
      exact hmem x hx)
  have hlen1 : fetched.length = (fetched.map Seat.id).toFinset.card := by
    rw [List.toFinset_card_of_nodup hnd, List.length_map]
  have hlen2 : ids.toFinset.card < ids.length := by
    rw [List.card_toFinset]
    have hsub2 : List.Sublist ids.dedup ids := List.dedup_sublist ids
    rcases Nat.lt_or_ge ids.dedup.length ids.length with h | h
    · exact h
    · exfalso
      have : ids.dedup = ids :=
        hsub2.eq_of_length (Nat.le_antisymm hsub2.length_le h)
      exact hdup (this ▸ ids.nodup_dedup)
  omega

/-- C10 (amended): a `/hold-multiple` call whose seat-id list has at
most 10 entries and contains a duplicate id always fails with the 404
NotFound error before any lock is attempted and with no state change,
because the number of distinct seats fetched is compared against the
raw length of the request list (a duplicate-containing list of more
than 10 ids instead hits the 400 seat-count check first). -/
theorem holdMultiple_duplicate_ids_notFound (σ : BookingState)
    (eid : Nat) (ids : List Nat) (user now : Nat)
    (hwf : (σ.seats.map Seat.id).Nodup)
    (hdup : ¬ ids.Nodup) (hlen : ids.length ≤ 10) :
    hold_multiple_seats σ eid ids user now =
      (.httpError 404 "One or more seats not found", [], σ) := by
  have hne : ids.isEmpty = false := by
    rcases ids with _ | ⟨a, rest⟩
    · exact absurd List.nodup_nil hdup
    · rfl
  have hlt := fetched_length_lt_of_dup σ ids hwf hdup
  simp only [hold_multiple_seats, hne, Bool.false_eq_true, if_false]
  rw [if_neg (by omega), if_pos (by omega)]

/-- Concrete instance for `holdMultiple_duplicate_ids_notFound`:
the request `[3, 3]` on a table with the single seat 3 fails with the
NotFound error and leaves the state unchanged. -/
theorem holdMultiple_duplicate_ids_notFound_witness :
    hold_multiple_seats ⟨[⟨3, 7, "A1", .available, none⟩], [], []⟩ 7
        [3, 3] 1 0 =
      (.httpError 404 "One or more seats not found", [],
        ⟨[⟨3, 7, "A1", .available, none⟩], [], []⟩) :=
  holdMultiple_duplicate_ids_notFound _ 7 [3, 3] 1 0 (by decide)
    (by decide) (by decide)

/-! ### Branch lemmas for `/hold` -/

theorem hold_seat_fresh (σ : BookingState) (eid sid user now : Nat)
    (seat : Seat) (hseat : seatGet σ.seats sid = some seat)
    (hev : seat.event_id = eid)
    (hlock : redisGet σ.locks now sid = none) :
    hold_seat σ eid sid user now =
      (.resp true "Seat successfully held for 5 minutes" sid
          (some (now + 5 * 60)),
        [⟨eid, sid, seat.seat_number, .held, some user⟩],
        { σ with
            seats := updateSeat σ.seats sid (fun s =>
              { s with status := .held, hold_expiry := some (now + 5 * 60) }),
            locks := ⟨sid, user, now + 300⟩ ::
              σ.locks.filter (fun e => e.key != sid) }) := by
  simp [hold_seat, hseat, hev, redisSetNX_of_none _ _ _ user hlock]

theorem hold_seat_already (σ : BookingState) (eid sid user now : Nat)
    (seat : Seat) (hseat : seatGet σ.seats sid = some seat)
    (hev : seat.event_id = eid)
    (hlock : redisGet σ.locks now sid = some user) :
    hold_seat σ eid sid user now =
      (.resp true "You already have this seat on hold" sid
          (some (now + redisTTL σ.locks now sid)), [], σ) := by
  simp [hold_seat, hseat, hev, redisSetNX_of_some _ _ _ user _ hlock, hlock]

theorem hold_seat_conflict (σ : BookingState) (eid sid user now : Nat)
    (seat : Seat) (hseat : seatGet σ.seats sid = some seat)
    (hev : seat.event_id = eid) (w : Nat)
    (hlock : redisGet σ.locks now sid = some w) (hw : w ≠ user) :
    hold_seat σ eid sid user now = (conflictHold sid, [], σ) := by
  simp [hold_seat, conflictHold, hseat, hev,
    redisSetNX_of_some _ _ _ user _ hlock, hlock, hw]

/-! ### Preservation of the seat invariant (claim C4) -/

theorem seatInv_set_held (s : Seat) (t : Nat) :
    SeatInv { s with status := .held, hold_expiry := some t } := by
  constructor <;> intro h <;> simp_all [SeatInv]

theorem seatInv_set_booked (s : Seat) :
    SeatInv { s with status := .booked, hold_expiry := none } := by
  constructor <;> intro h <;> simp_all [SeatInv]

theorem seatInv_set_available (s : Seat) :
    SeatInv { s with status := .available, hold_expiry := none } := by
  constructor <;> intro h <;> simp_all [SeatInv]

theorem stateInv_map_cond (seats : List Seat) (c : Seat → Bool)
    (f : Seat → Seat) (hinv : ∀ s ∈ seats, SeatInv s)
    (hf : ∀ s, SeatInv (f s)) :
    ∀ s2 ∈ seats.map (fun s => if c s then f s else s), SeatInv s2 := by
  intro s2 h2
  rw [List.mem_map] at h2
  obtain ⟨s, hs, heq⟩ := h2
  by_cases hc : c s = true
  · rw [if_pos hc] at heq
    exact heq ▸ hf s
  · rw [if_neg hc] at heq
    exact heq ▸ hinv s hs

theorem stateInv_updateSeat (seats : List Seat) (sid : Nat)
    (f : Seat → Seat) (hinv : ∀ s ∈ seats, SeatInv s)
    (hf : ∀ s, SeatInv (f s)) :
    ∀ s2 ∈ updateSeat seats sid f, SeatInv s2 := by
  unfold updateSeat
  exact stateInv_map_cond seats (fun s => s.id == sid) f hinv hf

theorem stateInv_hold (σ : BookingState) (eid sid user now : Nat)
    (h : StateInv σ) : StateInv (hold_seat σ eid sid user now).2.2 := by
  cases hseat : seatGet σ.seats sid with
  | none =>
    have heq : (hold_seat σ eid sid user now).2.2 = σ := by
      simp [hold_seat, hseat]
    rw [heq]; exact h
  | some seat =>
    by_cases hev : seat.event_id = eid
    · cases hlock : redisGet σ.locks now sid with
      | none =>
        rw [hold_seat_fresh σ eid sid user now seat hseat hev hlock]
        intro s2 h2
        exact stateInv_updateSeat σ.seats sid _ h
          (fun s => seatInv_set_held s _) s2 h2
      | some w =>
        by_cases hw : w = user
        · rw [hw] at hlock
          rw [hold_seat_already σ eid sid user now seat hseat hev hlock]
          exact h
        · rw [hold_seat_conflict σ eid sid user now seat hseat hev w hlock hw]
          exact h
    · have heq : (hold_seat σ eid sid user now).2.2 = σ := by
        simp [hold_seat, hseat, hev]
      rw [heq]; exact h

theorem holdMultiple_state_cases (σ : BookingState) (eid : Nat)
    (ids : List Nat) (user now : Nat) :
    (hold_multiple_seats σ eid ids user now).2.2.seats = σ.seats ∨
    (hold_multiple_seats σ eid ids user now).2.2.seats =
      σ.seats.map (fun s => if ids.contains s.id then
        { s with status := .held, hold_expiry := some (now + 5 * 60) }
        else s) := by
  simp only [hold_multiple_seats]
  split_ifs <;> simp

theorem stateInv_holdMultiple (σ : BookingState) (eid : Nat)
    (ids : List Nat) (user now : Nat) (h : StateInv σ) :
    StateInv (hold_multiple_seats σ eid ids user now).2.2 := by
  intro s2 h2
  rcases holdMultiple_state_cases σ eid ids user now with heq | heq
  · rw [heq] at h2
    exact h s2 h2
  · rw [heq] at h2
    exact stateInv_map_cond σ.seats _ _ h (fun s => seatInv_set_held s _)
      s2 h2

theorem stateInv_confirmStep (user now : Nat) (σ : BookingState) (sid : Nat)
    (h : StateInv σ) : StateInv (confirmStep user now σ sid).1 := by
  cases hlock : redisGet σ.locks now sid with
  | none =>
    have heq : (confirmStep user now σ sid).1 = σ := by
      simp [confirmStep, hlock]
    rw [heq]; exact h
  | some holder =>
    by_cases hu : holder = user
    · cases hseat : seatGet σ.seats sid with
      | none =>
        have heq : (confirmStep user now σ sid).1 = σ := by
          simp [confirmStep, hlock, hu, hseat]
        rw [heq]; exact h
      | some seat =>
        have heq : (confirmStep user now σ sid).1 =
            { seats := updateSeat σ.seats sid (fun s =>
                { s with status := .booked, hold_expiry := none }),
              bookings := σ.bookings ++
                [⟨nextBookingId σ.bookings, user, seat.event_id, sid,
                  .confirmed, now⟩],
              locks := redisDelete σ.locks sid } := by
          simp [confirmStep, hlock, hu, hseat]
        rw [heq]
        intro s2 h2
        exact stateInv_updateSeat σ.seats sid _ h
          (fun s => seatInv_set_booked s) s2 h2
    · have heq : (confirmStep user now σ sid).1 = σ := by
        simp [confirmStep, hlock, hu]
      rw [heq]; exact h

theorem confirmLoop_fst_cons (user now sid : Nat) (rest : List Nat)
    (σ : BookingState) :
    (confirmLoop user now (sid :: rest) σ).1 =
      (confirmLoop user now rest (confirmStep user now σ sid).1).1 := by
  simp only [confirmLoop]
  rcases h2 : (confirmStep user now σ sid).2 with seat | s <;> simp

theorem stateInv_confirmLoop (user now : Nat) (ids : List Nat)
    (σ : BookingState) (h : StateInv σ) :
    StateInv (confirmLoop user now ids σ).1 := by
  induction ids generalizing σ with
  | nil => exact h
  | cons sid rest ih =>
    rw [confirmLoop_fst_cons]
    exact ih _ (stateInv_confirmStep user now σ sid h)

theorem stateInv_releaseStep (user now : Nat) (σ : BookingState) (sid : Nat)
    (h : StateInv σ) : StateInv (releaseStep user now σ sid).1 := by
  cases hlock : redisGet σ.locks now sid with
  | none =>
    have heq : (releaseStep user now σ sid).1 = σ := by
      simp [releaseStep, hlock]
    rw [heq]; exact h
  | some holder =>
    by_cases hu : holder = user
    · cases hseat : seatGet σ.seats sid with
      | none =>
        have heq : (releaseStep user now σ sid).1 = σ := by
          simp [releaseStep, hlock, hu, hseat]
        rw [heq]; exact h
      | some seat =>
        have heq : (releaseStep user now σ sid).1 =
            { σ with
                seats := updateSeat σ.seats sid (fun s =>
                  { s with status := .available, hold_expiry := none }),
                locks := redisDelete σ.locks sid } := by
          simp [releaseStep, hlock, hu, hseat]
        rw [heq]
        intro s2 h2
        exact stateInv_updateSeat σ.seats sid _ h
          (fun s => seatInv_set_available s) s2 h2
    · have heq : (releaseStep user now σ sid).1 = σ := by
        simp [releaseStep, hlock, hu]
      rw [heq]; exact h

theorem releaseLoop_fst_cons (user now sid : Nat) (rest : List Nat)
    (σ : BookingState) :
    (releaseLoop user now (sid :: rest) σ).1 =
      (releaseLoop user now rest (releaseStep user now σ sid).1).1 := by
  simp only [releaseLoop]
  rcases h2 : (releaseStep user now σ sid).2 with seat | s <;> simp

theorem stateInv_releaseLoop (user now : Nat) (ids : List Nat)
    (σ : BookingState) (h : StateInv σ) :
    StateInv (releaseLoop user now ids σ).1 := by
  induction ids generalizing σ with
  | nil => exact h
  | cons sid rest ih =>
    rw [releaseLoop_fst_cons]
    exact ih _ (stateInv_releaseStep user now σ sid h)

theorem stateInv_cancel (σ : BookingState) (bid user : Nat)
    (h : StateInv σ) : StateInv (cancel_booking σ bid user).2.2 := by
  cases hb : σ.bookings.find?
      (fun b => b.id == bid && b.user_id == user) with
  | none =>
    have heq : (cancel_booking σ bid user).2.2 = σ := by
      simp [cancel_booking, hb]
    rw [heq]; exact h
  | some booking =>
    by_cases hc : booking.status = BookingStatus.cancelled
    · have heq : (cancel_booking σ bid user).2.2 = σ := by
        simp [cancel_booking, hb, hc]
      rw [heq]; exact h
    · cases hseat : seatGet σ.seats booking.seat_id with
      | none =>
        have heq : (cancel_booking σ bid user).2.2 = σ := by
          simp [cancel_booking, hb, hc, hseat]
        rw [heq]; exact h
      | some seat =>
        have heq : (cancel_booking σ bid user).2.2.seats =
            updateSeat σ.seats booking.seat_id (fun s =>
              { s with status := .available, hold_expiry := none }) := by
          simp [cancel_booking, hb, hc, hseat]
        intro s2 h2
        rw [heq] at h2
        exact stateInv_updateSeat σ.seats booking.seat_id _ h
          (fun s => seatInv_set_available s) s2 h2

theorem stateInv_cleanup (σ : BookingState) (now : Nat)
    (h : StateInv σ) : StateInv (cleanup_cycle σ now).2 := by
  intro s2 h2
  simp only [cleanup_cycle] at h2
  exact stateInv_map_cond σ.seats _ _ h
    (fun s => seatInv_set_available s) s2 h2

/-- C4: every state-mutating operation of the service (hold,
holdMultiple, confirm, release, cancelBooking, and one reaper cycle)
preserves the invariant that a booked seat has a null `hold_expiry` and
a held seat a non-null one. -/
theorem stateInv_applyOp (σ : BookingState) (op : Op) (h : StateInv σ) :
    StateInv (applyOp σ op) := by
  cases op with
  | hold eid sid user now => exact stateInv_hold σ eid sid user now h
  | holdMultiple eid ids user now =>
    exact stateInv_holdMultiple σ eid ids user now h
  | confirm ids user now =>
    show StateInv (confirm_booking σ ids user now).2.2
    rcases ids with _ | ⟨a, rest⟩
    · have heq : (confirm_booking σ [] user now).2.2 = σ := by
        simp [confirm_booking]
      rw [heq]; exact h
    · have heq : (confirm_booking σ (a :: rest) user now).2.2 =
          (confirmLoop user now (a :: rest) σ).1 := by
        simp only [confirm_booking, List.isEmpty_cons, Bool.false_eq_true,
          if_false]
        split_ifs <;> rfl
      rw [heq]
      exact stateInv_confirmLoop user now (a :: rest) σ h
  | release ids user now =>
    show StateInv (release_seats σ ids user now).2.2
    have heq : (release_seats σ ids user now).2.2 =
        (releaseLoop user now ids σ).1 := rfl
    rw [heq]
    exact stateInv_releaseLoop user now ids σ h
  | cancel bid user => exact stateInv_cancel σ bid user h
  | reap now => exact stateInv_cleanup σ now h

/-- Concrete instance for `stateInv_applyOp`: holding the available
seat 3 preserves the invariant. -/
theorem stateInv_applyOp_witness :
    StateInv (applyOp ⟨[⟨3, 7, "A1", .available, none⟩], [], []⟩
      (.hold 7 3 1 0)) :=
  stateInv_applyOp _ _ (by decide)

/-- C5: in one reaper cycle, a seat is reclaimed (set to available with
`hold_expiry` cleared) iff it is held with a passed `hold_expiry` and no
live lock entry; a seat with a live lock (and any non-candidate seat)
passes through the cycle unchanged; one broadcast is emitted per
reclaimed seat, carrying the available status.  The `reclaimable`
condition is shown equivalent to the claimed spec-level condition. -/
theorem cleanup_cycle_spec (σ : BookingState) (now : Nat) :
    (∀ s ∈ σ.seats, reclaimable σ.locks now s = true →
      { s with status := SeatStatus.available, hold_expiry := none } ∈
        (cleanup_cycle σ now).2.seats) ∧
    (∀ s ∈ σ.seats, reclaimable σ.locks now s = false →
      s ∈ (cleanup_cycle σ now).2.seats) ∧
    (∀ s ∈ σ.seats, redisExists σ.locks now s.id = true →
      s ∈ (cleanup_cycle σ now).2.seats) ∧
    ((cleanup_cycle σ now).1.length =
      (σ.seats.filter (reclaimable σ.locks now)).length) ∧
    (∀ b ∈ (cleanup_cycle σ now).1, ∃ s ∈ σ.seats,
      reclaimable σ.locks now s = true ∧
      b = ⟨s.event_id, s.id, s.seat_number, .available, none⟩) ∧
    (∀ s : Seat, reclaimable σ.locks now s = true ↔
      (s.status = .held ∧ (∃ t, s.hold_expiry = some t ∧ t < now) ∧
        redisExists σ.locks now s.id = false)) := by
  refine ⟨?_, ?_, ?_, ?_, ?_, ?_⟩
  · intro s hs hr
    simp only [cleanup_cycle, List.mem_map]
    exact ⟨s, hs, by rw [if_pos hr]⟩
  · intro s hs hr
    simp only [cleanup_cycle, List.mem_map]
    exact ⟨s, hs, by rw [hr]; rfl⟩
  · intro s hs hl
    have hr : reclaimable σ.locks now s = false := by
      simp [reclaimable, hl]
    simp only [cleanup_cycle, List.mem_map]
    exact ⟨s, hs, by rw [hr]; rfl⟩
  · simp [cleanup_cycle]
  · intro b hb
    simp only [cleanup_cycle, List.mem_map, List.mem_filter] at hb
    obtain ⟨s, ⟨hs, hr⟩, heq⟩ := hb
    exact ⟨s, hs, hr, heq.symm⟩
  · intro s
    constructor
    · intro hr
      simp only [reclaimable, expiredHeld, Bool.and_eq_true,
        Bool.not_eq_true] at hr
      obtain ⟨⟨hst, hexp⟩, hl⟩ := hr
      refine ⟨by simpa using hst, ?_, by simpa using hl⟩
      cases hx : s.hold_expiry with
      | none => rw [hx] at hexp; exact absurd hexp (by simp)
      | some t =>
        rw [hx] at hexp
        exact ⟨t, rfl, by simpa using hexp⟩
    · rintro ⟨hst, ⟨t, hx, ht⟩, hl⟩
      simp [reclaimable, expiredHeld, hst, hx, ht, hl]

theorem fetched_length_lt_of_missing (σ : BookingState) (ids : List Nat)
    (sid : Nat) (hwf : (σ.seats.map Seat.id).Nodup) (hmem : sid ∈ ids)
    (hnone : seatGet σ.seats sid = none) :
    (σ.seats.filter (fun s => ids.contains s.id)).length < ids.length := by
  set fetched := σ.seats.filter (fun s => ids.contains s.id) with hf
  have hsub : List.Sublist (fetched.map Seat.id) (σ.seats.map Seat.id) :=
    (List.filter_sublist σ.seats).map Seat.id
  have hnd : (fetched.map Seat.id).Nodup := hwf.sublist hsub
  have hnot : ∀ s ∈ σ.seats, s.id ≠ sid := by
    intro s hs
    have := List.find?_eq_none.mp hnone s hs
    simpa using this
  have hmem2 : ∀ x ∈ fetched.map Seat.id, x ∈ ids.toFinset.erase sid := by
    intro x hx
    rw [List.mem_map] at hx
    obtain ⟨s, hs, rfl⟩ := hx
    rw [hf, List.mem_filter] at hs
    rw [Finset.mem_erase, List.mem_toFinset]
    exact ⟨hnot s hs.1, by simpa using hs.2⟩
  have hcard : (fetched.map Seat.id).toFinset.card ≤
      (ids.toFinset.erase sid).card :=
    Finset.card_le_card (by
      intro x hx
      rw [List.mem_toFinset] at hx
      exact hmem2 x hx)
  have hlen1 : fetched.length = (fetched.map Seat.id).toFinset.card := by
    rw [List.toFinset_card_of_nodup hnd, List.length_map]
  have herase : (ids.toFinset.erase sid).card = ids.toFinset.card - 1 :=
    Finset.card_erase_of_mem (List.mem_toFinset.mpr hmem)
  have hpos : 0 < ids.toFinset.card :=
    Finset.card_pos.mpr ⟨sid, List.mem_toFinset.mpr hmem⟩
  have hle : ids.toFinset.card ≤ ids.length := ids.toFinset_card_le
  omega

theorem dedup_singleton_of_all_eq (l : List Nat) (e : Nat)
    (hne : l ≠ []) (hall : ∀ x ∈ l, x = e) : l.dedup = [e] := by
  have hmem : e ∈ l.dedup := by
    rw [List.mem_dedup]
    rcases l with _ | ⟨a, rest⟩
    · exact absurd rfl hne
    · exact (hall a (by simp)) ▸ List.mem_cons_self a rest
  have hsub : ∀ x ∈ l.dedup, x = e := fun x hx =>
    hall x (List.mem_dedup.mp hx)
  have hnd : l.dedup.Nodup := l.nodup_dedup
  rcases hd : l.dedup with _ | ⟨a, rest⟩
  · rw [hd] at hmem; exact absurd hmem (by simp)
  · rw [hd] at hsub hnd
    have ha : a = e := hsub a (by simp)
    rcases rest with _ | ⟨b, rest2⟩
    · rw [ha]
    · exfalso
      have hb : b = e := hsub b (by simp)
      rw [List.nodup_cons] at hnd
      exact hnd.1 (by rw [ha, hb]; simp)

/-- C6: a `/hold-multiple` call violating a validation precondition
(empty seat list, more than 10 seats, a nonexistent seat, or a
requested seat not belonging to the stated event) fails with a raised
`HTTPException` before any lock is attempted: it emits no broadcast and
leaves the whole state (locks and seats) unchanged. -/
theorem holdMultiple_validation_rejects (σ : BookingState)
    (eid : Nat) (ids : List Nat) (user now : Nat)
    (hwf : (σ.seats.map Seat.id).Nodup)
    (hviol : ids = [] ∨ 10 < ids.length ∨
      (∃ sid ∈ ids, seatGet σ.seats sid = none) ∨
      (∃ s ∈ σ.seats, s.id ∈ ids ∧ s.event_id ≠ eid)) :
    (∃ code detail,
      (hold_multiple_seats σ eid ids user now).1 = .httpError code detail) ∧
    (hold_multiple_seats σ eid ids user now).2.1 = [] ∧
    (hold_multiple_seats σ eid ids user now).2.2 = σ := by
  have hout : ∃ code detail, hold_multiple_seats σ eid ids user now =
      (.httpError code detail, [], σ) := by
    rcases hviol with rfl | hlen | ⟨sid, hmem, hnone⟩ | ⟨s, hs, hin, hne⟩
    · exact ⟨400, "No seats provided", by simp [hold_multiple_seats]⟩
    · have hne : ids.isEmpty = false := by
        rcases ids with _ | ⟨a, rest⟩
        · simp at hlen
        · rfl
      refine ⟨400, "Cannot hold more than 10 seats at once", ?_⟩
      simp only [hold_multiple_seats, hne, Bool.false_eq_true, if_false]
      rw [if_pos hlen]
    · have hnil : ids.isEmpty = false := by
        rcases ids with _ | ⟨a, rest⟩
        · simp at hmem
        · rfl
      by_cases hlen : 10 < ids.length
      · refine ⟨400, "Cannot hold more than 10 seats at once", ?_⟩
        simp only [hold_multiple_seats, hnil, Bool.false_eq_true, if_false]
        rw [if_pos hlen]
      · have hlt := fetched_length_lt_of_missing σ ids sid hwf hmem hnone
        refine ⟨404, "One or more seats not found", ?_⟩
        simp only [hold_multiple_seats, hnil, Bool.false_eq_true, if_false]
        rw [if_neg hlen, if_pos (by omega)]
    · have hnil : ids.isEmpty = false := by
        rcases ids with _ | ⟨a, rest⟩
        · simp at hin
        · rfl
      by_cases hlen : 10 < ids.length
      · refine ⟨400, "Cannot hold more than 10 seats at once", ?_⟩
        simp only [hold_multiple_seats, hnil, Bool.false_eq_true, if_false]
        rw [if_pos hlen]
      · by_cases hcount :
          (σ.seats.filter (fun s => ids.contains s.id)).length = ids.length
        · set fetched := σ.seats.filter (fun s => ids.contains s.id)
            with hfet
          set evs := (fetched.map Seat.event_id).dedup with hevs
          have hsin : s ∈ fetched := by
            rw [hfet, List.mem_filter]
            exact ⟨hs, by simpa using hin⟩
          have hsev : s.event_id ∈ evs := by
            rw [hevs, List.mem_dedup, List.mem_map]
            exact ⟨s, hsin, rfl⟩
          by_cases hev1 : 1 < evs.length
          · refine ⟨400, "All seats must belong to the same event", ?_⟩
            simp only [hold_multiple_seats, hnil, Bool.false_eq_true,
              if_false]
            rw [← hfet, ← hevs, if_neg hlen, if_neg (by omega),
              if_pos hev1]
          · have hall : ∀ x ∈ evs, x = s.event_id := by
              intro x hx
              rcases he : evs with _ | ⟨a, rest⟩
              · rw [he] at hsev; exact absurd hsev (by simp)
              · rcases rest with _ | ⟨b, rest2⟩
                · rw [he] at hx hsev
                  simp only [List.mem_singleton] at hx hsev
                  rw [hx, hsev]
                · rw [he] at hev1; simp at hev1
            have hnc : evs.contains eid = false := by
              simp only [List.contains, List.elem_eq_mem,
                decide_eq_false_iff_not]
              intro hc
              exact hne (hall eid hc).symm
            refine ⟨400, "Seats do not belong to specified event", ?_⟩
            simp only [hold_multiple_seats, hnil, Bool.false_eq_true,
              if_false]
            rw [← hfet, ← hevs, if_neg hlen, if_neg (by omega),
              if_neg hev1, if_pos (by rw [hnc]; simp)]
        · refine ⟨404, "One or more seats not found", ?_⟩
          simp only [hold_multiple_seats, hnil, Bool.false_eq_true, if_false]
          rw [if_neg hlen, if_pos hcount]
  obtain ⟨code, detail, heq⟩ := hout
  exact ⟨⟨code, detail, by rw [heq]⟩, by rw [heq], by rw [heq]⟩

/-- Concrete instance for `holdMultiple_validation_rejects`: requesting
seat 9, which does not exist, changes nothing. -/
theorem holdMultiple_validation_rejects_witness :
    (∃ code detail,
      (hold_multiple_seats ⟨[⟨3, 7, "A1", .available, none⟩], [], []⟩ 7
        [9] 1 0).1 = .httpError code detail) ∧
    (hold_multiple_seats ⟨[⟨3, 7, "A1", .available, none⟩], [], []⟩ 7
      [9] 1 0).2.1 = [] ∧
    (hold_multiple_seats ⟨[⟨3, 7, "A1", .available, none⟩], [], []⟩ 7
      [9] 1 0).2.2 = ⟨[⟨3, 7, "A1", .available, none⟩], [], []⟩ :=
  holdMultiple_validation_rejects _ 7 [9] 1 0 (by decide)
    (Or.inr (Or.inr (Or.inl ⟨9, by decide, by decide⟩)))

/-! ### `/cancel-booking` (claim C9) -/

theorem find?_booking_unique (bs : List Booking) (bid user : Nat)
    (hwf : (bs.map Booking.id).Nodup) (b : Booking) (hb : b ∈ bs)
    (hid : b.id = bid) (hu : b.user_id = user) :
    bs.find? (fun x => x.id == bid && x.user_id == user) = some b := by
  induction bs with
  | nil => simp at hb
  | cons a rest ih =>
    rw [List.map_cons, List.nodup_cons] at hwf
    rcases List.mem_cons.mp hb with rfl | hb2
    · exact List.find?_cons_of_pos _ (by simp [hid, hu])
    · by_cases ha : a.id = bid ∧ a.user_id = user
      · exfalso
        apply hwf.1
        rw [ha.1, ← hid]
        exact List.mem_map_of_mem Booking.id hb2
      · rw [List.find?_cons_of_neg _ (by
          simp only [Bool.and_eq_true, beq_iff_eq, not_and]
          intro h1 h2
          exact ha ⟨h1, h2⟩)]
        exact ih hwf.2 hb2

theorem bookings_map_cancel_id (bs : List Booking) (i : Nat) :
    ((bs.map (fun x => if x.id == i then
        { x with status := BookingStatus.cancelled } else x)).map
      Booking.id) = bs.map Booking.id := by
  rw [List.map_map]
  apply List.map_congr_left
  intro x _
  by_cases h : x.id = i <;> simp [h]

theorem cancel_booking_already_eq (σ : BookingState) (bid user : Nat)
    (b : Booking)
    (hfind : σ.bookings.find?
      (fun x => x.id == bid && x.user_id == user) = some b)
    (hc : b.status = .cancelled) :
    cancel_booking σ bid user =
      (.httpError 400 "Booking already cancelled", [], σ) := by
  simp [cancel_booking, hfind, hc]

theorem cancel_booking_success_eq (σ : BookingState) (bid user : Nat)
    (b : Booking) (st : Seat)
    (hfind : σ.bookings.find?
      (fun x => x.id == bid && x.user_id == user) = some b)
    (hst : b.status ≠ .cancelled)
    (hseat : seatGet σ.seats b.seat_id = some st) :
    cancel_booking σ bid user =
      (.resp true "Booking cancelled successfully" bid,
        [⟨st.event_id, st.id, st.seat_number, .available, none⟩],
        { σ with
            seats := updateSeat σ.seats b.seat_id (fun s =>
              { s with status := .available, hold_expiry := none }),
            bookings := σ.bookings.map (fun x =>
              if x.id == b.id then { x with status := .cancelled }
              else x) }) := by
  simp [cancel_booking, hfind, hst, hseat]

/-- C9: `/cancel-booking` fails with no state change when the booking
does not exist for the calling principal (404) or is already cancelled
(400); on success the booking becomes cancelled, the associated seat is
set back to available with `hold_expiry` cleared while the lock store is
completely untouched, one broadcast is emitted, and a second cancel of
the same booking fails with the already-cancelled error and changes
nothing — the seat is returned to available exactly once per booking. -/
theorem cancel_booking_spec (σ : BookingState) (bid user : Nat)
    (hwf : (σ.bookings.map Booking.id).Nodup) :
    ((∀ b ∈ σ.bookings, ¬(b.id = bid ∧ b.user_id = user)) →
      cancel_booking σ bid user =
        (.httpError 404 "Booking not found", [], σ)) ∧
    (∀ b ∈ σ.bookings, b.id = bid → b.user_id = user →
      b.status = .cancelled →
      cancel_booking σ bid user =
        (.httpError 400 "Booking already cancelled", [], σ)) ∧
    (∀ b ∈ σ.bookings, b.id = bid → b.user_id = user →
      b.status ≠ .cancelled → ∀ st, seatGet σ.seats b.seat_id = some st →
      ((cancel_booking σ bid user).1 =
          .resp true "Booking cancelled successfully" bid) ∧
      ((cancel_booking σ bid user).2.1 =
          [⟨st.event_id, st.id, st.seat_number, .available, none⟩]) ∧
      (seatGet (cancel_booking σ bid user).2.2.seats b.seat_id =
          some { st with status := .available, hold_expiry := none }) ∧
      (∀ sid, sid ≠ b.seat_id →
          seatGet (cancel_booking σ bid user).2.2.seats sid =
            seatGet σ.seats sid) ∧
      ((cancel_booking σ bid user).2.2.locks = σ.locks) ∧
      ({ b with status := BookingStatus.cancelled } ∈
          (cancel_booking σ bid user).2.2.bookings) ∧
      (cancel_booking (cancel_booking σ bid user).2.2 bid user =
        (.httpError 400 "Booking already cancelled", [],
          (cancel_booking σ bid user).2.2))) := by
  refine ⟨?_, ?_, ?_⟩
  · intro hnone
    have hfind : σ.bookings.find?
        (fun x => x.id == bid && x.user_id == user) = none := by
      rw [List.find?_eq_none]
      intro x hx
      simp only [Bool.and_eq_true, beq_iff_eq, not_and]
      intro h1 h2
      exact hnone x hx ⟨h1, h2⟩
    simp [cancel_booking, hfind]
  · intro b hb hid hu hc
    have hfind := find?_booking_unique σ.bookings bid user hwf b hb hid hu
    exact cancel_booking_already_eq σ bid user b hfind hc
  · intro b hb hid hu hc st hseat
    have hfind := find?_booking_unique σ.bookings bid user hwf b hb hid hu
    have heq := cancel_booking_success_eq σ bid user b st hfind hc hseat
    have hmem2 : { b with status := BookingStatus.cancelled } ∈
        (cancel_booking σ bid user).2.2.bookings := by
      rw [heq]
      dsimp only
      simp only [List.mem_map]
      exact ⟨b, hb, by simp⟩
    refine ⟨by rw [heq], by rw [heq], ?_, ?_, by rw [heq], hmem2, ?_⟩
    · rw [heq]
      dsimp only
      rw [seatGet_updateSeat_self σ.seats b.seat_id
        (fun s =>
          { s with status := SeatStatus.available, hold_expiry := none })
        (fun s => rfl), hseat]
      rfl
    · intro sid hsid
      rw [heq]
      dsimp only
      exact seatGet_updateSeat_ne σ.seats b.seat_id sid
        (fun s =>
          { s with status := SeatStatus.available, hold_expiry := none })
        (fun s => rfl) hsid
    · have hwf2 : ((cancel_booking σ bid user).2.2.bookings.map
          Booking.id).Nodup := by
        rw [heq]
        dsimp only
        rw [bookings_map_cancel_id]
        exact hwf
      have hfind2 := find?_booking_unique
        (cancel_booking σ bid user).2.2.bookings bid user hwf2
        { b with status := BookingStatus.cancelled } hmem2 hid hu
      exact cancel_booking_already_eq (cancel_booking σ bid user).2.2
        bid user { b with status := BookingStatus.cancelled } hfind2 rfl

/-- Concrete instance for `cancel_booking_spec`: cancelling booking 1
of user 4 on a booked seat succeeds, frees the seat, keeps the lock
store untouched, and a second cancel fails. -/
theorem cancel_booking_spec_witness :
    ((cancel_booking ⟨[⟨3, 7, "A1", .booked, none⟩],
        [⟨1, 4, 7, 3, .confirmed, 50⟩], [⟨9, 8, 500⟩]⟩ 1 4).1 =
      .resp true "Booking cancelled successfully" 1) ∧
    (seatGet (cancel_booking ⟨[⟨3, 7, "A1", .booked, none⟩],
        [⟨1, 4, 7, 3, .confirmed, 50⟩], [⟨9, 8, 500⟩]⟩ 1 4).2.2.seats 3 =
      some ⟨3, 7, "A1", .available, none⟩) ∧
    ((cancel_booking ⟨[⟨3, 7, "A1", .booked, none⟩],
        [⟨1, 4, 7, 3, .confirmed, 50⟩], [⟨9, 8, 500⟩]⟩ 1 4).2.2.locks =
      [⟨9, 8, 500⟩]) := by
  have h := (cancel_booking_spec ⟨[⟨3, 7, "A1", .booked, none⟩],
      [⟨1, 4, 7, 3, .confirmed, 50⟩], [⟨9, 8, 500⟩]⟩ 1 4
      (by decide)).2.2
      ⟨1, 4, 7, 3, .confirmed, 50⟩ (by decide) rfl rfl (by decide)
      ⟨3, 7, "A1", .booked, none⟩ (by decide)
  exact ⟨h.1, h.2.2.1, h.2.2.2.2.1⟩

/-! ### `/hold-multiple` success path (claim C7) -/

theorem contains_true_of_mem (l : List Nat) (x : Nat) (h : x ∈ l) :
    l.contains x = true := by
  simp only [List.contains, List.elem_eq_mem, decide_eq_true_eq]
  exact h

theorem contains_false_of_not_mem (l : List Nat) (x : Nat) (h : x ∉ l) :
    l.contains x = false := by
  simp only [List.contains, List.elem_eq_mem, decide_eq_false_iff_not]
  exact h

theorem acquireLoop_all_ok (now user : Nat) (seats : List Seat)
    (locks : List LockEntry)
    (hnd : (seats.map Seat.id).Nodup)
    (h : ∀ s ∈ seats, redisGet locks now s.id = none ∨
      redisGet locks now s.id = some user) :
    (acquireLoop now user seats locks).1 = seats.map Seat.id ∧
    (acquireLoop now user seats locks).2.1 = [] := by
  induction seats generalizing locks with
  | nil => exact ⟨rfl, rfl⟩
  | cons seat rest ih =>
    rw [List.map_cons, List.nodup_cons] at hnd
    rcases h seat (by simp) with hget | hget
    · have hsnx := redisSetNX_of_none locks now seat.id user hget
      have hrest : ∀ s ∈ rest,
          redisGet (⟨seat.id, user, now + 300⟩ ::
            locks.filter (fun e => e.key != seat.id)) now s.id =
            redisGet locks now s.id := by
        intro s hs
        have hne2 : s.id ≠ seat.id := by
          intro hcontra
          exact hnd.1 (hcontra ▸ List.mem_map_of_mem Seat.id hs)
        rw [redisGet_cons_ne _ _ _ _ _ _ hne2,
          redisGet_filter_ne _ _ _ _ hne2]
      have ih2 := ih (⟨seat.id, user, now + 300⟩ ::
          locks.filter (fun e => e.key != seat.id)) hnd.2 (by
        intro s hs
        rw [hrest s hs]
        exact h s (by simp [hs]))
      simp only [acquireLoop, hsnx, List.map_cons]
      exact ⟨by simp [ih2.1], by simp [ih2.2]⟩
    · have hsnx := redisSetNX_of_some locks now seat.id user user hget
      have ih2 := ih locks hnd.2 (fun s hs => h s (by simp [hs]))
      simp only [acquireLoop, hsnx, hget, List.map_cons]
      exact ⟨by simp [ih2.1], by simp [ih2.2]⟩

/-- C7: when every requested seat's lock is freshly acquirable or
already owned by the calling principal, `/hold-multiple` succeeds:
every requested seat transitions to held with the one shared expiry
`now + 5 * 60` in the single committed state, all other seats are
untouched, and exactly one held broadcast per requested seat is
emitted, carrying the caller and the event. -/
theorem holdMultiple_success (σ : BookingState) (eid : Nat)
    (ids : List Nat) (user now : Nat)
    (hwf : (σ.seats.map Seat.id).Nodup)
    (hne : ids ≠ [])
    (hlen : ¬ 10 < ids.length)
    (hcount : (σ.seats.filter (fun s => ids.contains s.id)).length =
      ids.length)
    (hevent : ∀ s ∈ σ.seats, s.id ∈ ids → s.event_id = eid)
    (hlocks : ∀ s ∈ σ.seats, s.id ∈ ids →
      redisGet σ.locks now s.id = none ∨
      redisGet σ.locks now s.id = some user) :
    (∃ m, (hold_multiple_seats σ eid ids user now).1 =
      .resp true m
        ((σ.seats.filter (fun s => ids.contains s.id)).map Seat.id) []
        (some (now + 5 * 60))) ∧
    (∀ s ∈ σ.seats, s.id ∈ ids →
      { s with status := SeatStatus.held, hold_expiry := some (now + 5 * 60) } ∈
        (hold_multiple_seats σ eid ids user now).2.2.seats) ∧
    (∀ s ∈ σ.seats, s.id ∉ ids →
      s ∈ (hold_multiple_seats σ eid ids user now).2.2.seats) ∧
    ((hold_multiple_seats σ eid ids user now).2.1.length = ids.length) ∧
    (∀ b ∈ (hold_multiple_seats σ eid ids user now).2.1,
      b.status = .held ∧ b.user_id = some user ∧ b.event_id = eid) := by
  set fetched := σ.seats.filter (fun s => ids.contains s.id) with hfet
  have hndf : (fetched.map Seat.id).Nodup :=
    hwf.sublist ((List.filter_sublist σ.seats).map Seat.id)
  have hmemf : ∀ s ∈ fetched, s ∈ σ.seats ∧ s.id ∈ ids := by
    intro s hs
    rw [hfet, List.mem_filter] at hs
    exact ⟨hs.1, by simpa using hs.2⟩
  have hall := acquireLoop_all_ok now user fetched σ.locks hndf
    (fun s hs => hlocks s (hmemf s hs).1 (hmemf s hs).2)
  have hnil : ids.isEmpty = false := by
    rcases ids with _ | ⟨a, rest⟩
    · exact absurd rfl hne
    · rfl
  have hfne : fetched ≠ [] := by
    intro hcontra
    rw [hcontra] at hcount
    rcases ids with _ | ⟨a, rest⟩
    · exact absurd rfl hne
    · simp at hcount
  have hevs : (fetched.map Seat.event_id).dedup = [eid] := by
    apply dedup_singleton_of_all_eq
    · simp [hfne]
    · intro x hx
      rw [List.mem_map] at hx
      obtain ⟨s, hs, rfl⟩ := hx
      exact hevent s (hmemf s hs).1 (hmemf s hs).2
  have hEval : hold_multiple_seats σ eid ids user now =
      (.resp true ("Successfully held " ++
          toString (acquireLoop now user fetched σ.locks).1.length ++
          " seat(s) for 5 minutes")
        (acquireLoop now user fetched σ.locks).1 []
        (some (now + 5 * 60)),
        fetched.map
          (fun s => ⟨eid, s.id, s.seat_number, .held, some user⟩),
        { σ with
            seats := σ.seats.map (fun s => if ids.contains s.id then
              { s with status := .held, hold_expiry := some (now + 5 * 60) }
              else s),
            locks := (acquireLoop now user fetched σ.locks).2.2 }) := by
    simp only [hold_multiple_seats, hnil, Bool.false_eq_true, if_false]
    rw [← hfet, if_neg hlen, if_neg (by omega), hevs,
      if_neg (by simp), if_neg (by simp), hall.2]
    simp
  refine ⟨?_, ?_, ?_, ?_, ?_⟩
  · refine ⟨"Successfully held " ++
      toString (acquireLoop now user fetched σ.locks).1.length ++
      " seat(s) for 5 minutes", ?_⟩
    rw [hEval]
    dsimp only
    rw [hall.1]
  · intro s hs hid
    rw [hEval]
    dsimp only
    rw [List.mem_map]
    exact ⟨s, hs, by rw [if_pos (contains_true_of_mem ids s.id hid)]⟩
  · intro s hs hid
    rw [hEval]
    dsimp only
    rw [List.mem_map]
    refine ⟨s, hs, ?_⟩
    rw [if_neg (by rw [contains_false_of_not_mem ids s.id hid]; simp)]
  · rw [hEval]
    dsimp only
    rw [List.length_map, ← hcount, hfet]
  · intro b hb
    rw [hEval] at hb
    dsimp only at hb
    rw [List.mem_map] at hb
    obtain ⟨s, hs, rfl⟩ := hb
    exact ⟨rfl, rfl, rfl⟩

/-- Concrete instance for `holdMultiple_success`: user 1 holds seats
`[1, 2]` of event 7, where seat 1 is unlocked and seat 2 is already
locked by user 1; both become held with the shared expiry 300 and two
broadcasts are emitted. -/
theorem holdMultiple_success_witness :
    ((⟨1, 7, "A1", SeatStatus.held, some 300⟩ : Seat) ∈
      (hold_multiple_seats
        ⟨[⟨1, 7, "A1", .available, none⟩, ⟨2, 7, "A2", .held, some 250⟩],
          [], [⟨2, 1, 280⟩]⟩ 7 [1, 2] 1 0).2.2.seats) ∧
    ((⟨2, 7, "A2", SeatStatus.held, some 300⟩ : Seat) ∈
      (hold_multiple_seats
        ⟨[⟨1, 7, "A1", .available, none⟩, ⟨2, 7, "A2", .held, some 250⟩],
          [], [⟨2, 1, 280⟩]⟩ 7 [1, 2] 1 0).2.2.seats) ∧
    ((hold_multiple_seats
        ⟨[⟨1, 7, "A1", .available, none⟩, ⟨2, 7, "A2", .held, some 250⟩],
          [], [⟨2, 1, 280⟩]⟩ 7 [1, 2] 1 0).2.1.length = 2) := by
  have h := holdMultiple_success
    ⟨[⟨1, 7, "A1", .available, none⟩, ⟨2, 7, "A2", .held, some 250⟩],
      [], [⟨2, 1, 280⟩]⟩ 7 [1, 2] 1 0
    (by decide) (by decide) (by decide) (by decide) (by decide)
    (by decide)
  exact ⟨h.2.1 ⟨1, 7, "A1", .available, none⟩ (by decide) (by decide),
    h.2.1 ⟨2, 7, "A2", .held, some 250⟩ (by decide) (by decide),
    h.2.2.2.1⟩


/-! ### Concurrent `/hold` attempts on one seat (claim C1) -/

theorem holdRun_all_conflict (eid sid now : Nat) (us : List Nat)
    (σ : BookingState) (st : Seat)
    (hseat : seatGet σ.seats sid = some st) (hev : st.event_id = eid)
    (w : Nat) (hlock : redisGet σ.locks now sid = some w)
    (hw : ∀ v ∈ us, v ≠ w) :
    (holdRun eid sid now us σ).1 = us.map (fun _ => conflictHold sid) ∧
    (holdRun eid sid now us σ).2 = σ := by
  induction us with
  | nil => exact ⟨rfl, rfl⟩
  | cons u rest ih =>
    have hc := hold_seat_conflict σ eid sid u now st hseat hev w hlock
      (Ne.symm (hw u (by simp)))
    have ih2 := ih (fun v hv => hw v (by simp [hv]))
    simp only [holdRun, hc, List.map_cons]
    exact ⟨by rw [ih2.1], by rw [ih2.2]⟩

theorem conflict_filter_fresh_nil (sid : Nat) (l : List Nat) :
    (l.map (fun _ => conflictHold sid)).filter isFreshHold = [] := by
  induction l with
  | nil => rfl
  | cons a r ih =>
    rw [List.map_cons,
      List.filter_cons_of_neg (by simp [isFreshHold, conflictHold]), ih]

/-- C1: starting from a state where the seat exists in the stated event
and carries no live lock, a back-to-back sequence of `/hold` attempts
by pairwise-distinct principals produces exactly one fresh-acquisition
success (the first attempt) and a conflict response for every other
attempt; no attempt after the first mutates the state, and exactly one
response of the whole run is a fresh acquisition. -/
theorem hold_concurrent_exclusion (σ : BookingState)
    (eid sid now u : Nat) (us : List Nat) (st : Seat)
    (hseat : seatGet σ.seats sid = some st) (hev : st.event_id = eid)
    (hnolock : redisGet σ.locks now sid = none)
    (hnd : (u :: us).Nodup) :
    ((holdRun eid sid now (u :: us) σ).1 =
      (.resp true "Seat successfully held for 5 minutes" sid
        (some (now + 5 * 60))) :: us.map (fun _ => conflictHold sid)) ∧
    ((holdRun eid sid now (u :: us) σ).2 =
      (hold_seat σ eid sid u now).2.2) ∧
    (((holdRun eid sid now (u :: us) σ).1.filter isFreshHold).length
      = 1) := by
  have hfr := hold_seat_fresh σ eid sid u now st hseat hev hnolock
  have hout1 : (hold_seat σ eid sid u now).1 =
      .resp true "Seat successfully held for 5 minutes" sid
        (some (now + 5 * 60)) := by
    rw [hfr]
  have hnu : ∀ v ∈ us, v ≠ u := by
    rw [List.nodup_cons] at hnd
    intro v hv hvu
    exact hnd.1 (hvu ▸ hv)
  have hseat1 : seatGet (hold_seat σ eid sid u now).2.2.seats sid =
      some { st with status := SeatStatus.held, hold_expiry := some (now + 5 * 60) } := by
    rw [hfr]
    dsimp only
    rw [seatGet_updateSeat_self σ.seats sid
      (fun s =>
        { s with status := .held, hold_expiry := some (now + 5 * 60) })
      (fun s => rfl), hseat]
    rfl
  have hlock1 :
      redisGet (hold_seat σ eid sid u now).2.2.locks now sid = some u := by
    rw [hfr]
    dsimp only
    exact redisGet_cons_live _ now sid u (now + 300) (by omega)
  have hconf := holdRun_all_conflict eid sid now us
    (hold_seat σ eid sid u now).2.2
    { st with status := SeatStatus.held, hold_expiry := some (now + 5 * 60) }
    hseat1 hev u hlock1 hnu
  have hsplit1 : (holdRun eid sid now (u :: us) σ).1 =
      (hold_seat σ eid sid u now).1 ::
        (holdRun eid sid now us (hold_seat σ eid sid u now).2.2).1 := by
    simp only [holdRun]
  have hsplit2 : (holdRun eid sid now (u :: us) σ).2 =
      (holdRun eid sid now us (hold_seat σ eid sid u now).2.2).2 := by
    simp only [holdRun]
  refine ⟨?_, ?_, ?_⟩
  · rw [hsplit1, hout1, hconf.1]
  · rw [hsplit2, hconf.2]
  · rw [hsplit1, hout1, hconf.1,
      List.filter_cons_of_pos (by simp [isFreshHold]),
      conflict_filter_fresh_nil]
    rfl

/-- Concrete instance for `hold_concurrent_exclusion`: users 1, 2, 9
race to hold the free seat 3; user 1 acquires fresh, users 2 and 9 see
the conflict response and nothing is mutated after the first call. -/
theorem hold_concurrent_exclusion_witness :
    ((holdRun 7 3 0 [1, 2, 9]
        ⟨[⟨3, 7, "A1", .available, none⟩], [], []⟩).1 =
      (.resp true "Seat successfully held for 5 minutes" 3 (some 300)) ::
        [conflictHold 3, conflictHold 3]) ∧
    (((holdRun 7 3 0 [1, 2, 9]
        ⟨[⟨3, 7, "A1", .available, none⟩], [], []⟩).1.filter
          isFreshHold).length = 1) := by
  have h := hold_concurrent_exclusion
    ⟨[⟨3, 7, "A1", .available, none⟩], [], []⟩ 7 3 0 1 [2, 9]
    ⟨3, 7, "A1", .available, none⟩ (by decide) rfl (by decide) (by decide)
  exact ⟨h.1, h.2.2⟩

/-! ### `/confirm` (claim C8) -/

theorem confirmStep_fail_lock (user now : Nat) (σ0 : BookingState)
    (sid : Nat) (h : redisGet σ0.locks now sid ≠ some user) :
    confirmStep user now σ0 sid = (σ0, .failed sid) := by
  cases hget : redisGet σ0.locks now sid with
  | none => simp [confirmStep, hget]
  | some w =>
    have hw : w ≠ user := fun hcontra => h (by rw [hget, hcontra])
    simp [confirmStep, hget, hw]

theorem confirmStep_fail_seat (user now : Nat) (σ0 : BookingState)
    (sid : Nat) (hget : redisGet σ0.locks now sid = some user)
    (hseat : seatGet σ0.seats sid = none) :
    confirmStep user now σ0 sid = (σ0, .failed sid) := by
  simp [confirmStep, hget, hseat]

theorem confirmStep_ok_eq (user now : Nat) (σ0 : BookingState)
    (sid : Nat) (st : Seat)
    (hget : redisGet σ0.locks now sid = some user)
    (hseat : seatGet σ0.seats sid = some st) :
    confirmStep user now σ0 sid =
      ({ seats := updateSeat σ0.seats sid (fun s =>
            { s with status := .booked, hold_expiry := none }),
          bookings := σ0.bookings ++
            [⟨nextBookingId σ0.bookings, user, st.event_id, sid,
              .confirmed, now⟩],
          locks := redisDelete σ0.locks sid },
        .ok { st with status := SeatStatus.booked, hold_expiry := none }) := by
  simp [confirmStep, hget, hseat]

theorem confirmLoop_cons_ok2 (user now sid : Nat) (rest : List Nat)
    (σ : BookingState) (stc : Seat)
    (hres : (confirmStep user now σ sid).2 = .ok stc) :
    confirmLoop user now (sid :: rest) σ =
      ((confirmLoop user now rest (confirmStep user now σ sid).1).1,
        stc ::
          (confirmLoop user now rest (confirmStep user now σ sid).1).2.1,
        (confirmLoop user now rest (confirmStep user now σ sid).1).2.2) := by
  simp only [confirmLoop, hres]

theorem confirmLoop_cons_failed2 (user now sid : Nat) (rest : List Nat)
    (σ : BookingState) (s : Nat)
    (hres : (confirmStep user now σ sid).2 = .failed s) :
    confirmLoop user now (sid :: rest) σ =
      ((confirmLoop user now rest (confirmStep user now σ sid).1).1,
        (confirmLoop user now rest (confirmStep user now σ sid).1).2.1,
        s ::
          (confirmLoop user now rest (confirmStep user now σ sid).1).2.2) := by
  simp only [confirmLoop, hres]

theorem confirmLoop_no_lock_preserved (user now : Nat) (ids : List Nat)
    (σ : BookingState) (st : Seat) (hmem : st ∈ σ.seats)
    (hlock : redisGet σ.locks now st.id = none) :
    st ∈ (confirmLoop user now ids σ).1.seats ∧
    redisGet (confirmLoop user now ids σ).1.locks now st.id = none := by
  induction ids generalizing σ with
  | nil => exact ⟨hmem, hlock⟩
  | cons sid rest ih =>
    rw [confirmLoop_fst_cons]
    by_cases hu : redisGet σ.locks now sid = some user
    · cases hseat : seatGet σ.seats sid with
      | none =>
        rw [confirmStep_fail_seat user now σ sid hu hseat]
        exact ih σ hmem hlock
      | some st2 =>
        have hne : sid ≠ st.id := by
          intro hc
          rw [hc] at hu
          simp [hu] at hlock
        rw [confirmStep_ok_eq user now σ sid st2 hu hseat]
        dsimp only
        apply ih
        · unfold updateSeat
          rw [List.mem_map]
          refine ⟨st, hmem, ?_⟩
          rw [if_neg (by
            simp only [beq_iff_eq]
            exact fun hc => hne hc.symm)]
        · rw [redisGet_delete_ne _ _ _ _ (Ne.symm hne)]
          exact hlock
    · rw [confirmStep_fail_lock user now σ sid hu]
      exact ih σ hmem hlock

theorem confirmLoop_confirmed_booked (user now : Nat) (ids : List Nat)
    (σ : BookingState) :
    ∀ st ∈ (confirmLoop user now ids σ).2.1,
      st ∈ (confirmLoop user now ids σ).1.seats ∧
      st.status = SeatStatus.booked := by
  induction ids generalizing σ with
  | nil =>
    intro st hst
    simp [confirmLoop] at hst
  | cons sid rest ih =>
    intro st hst
    by_cases hu : redisGet σ.locks now sid = some user
    · cases hseat : seatGet σ.seats sid with
      | none =>
        have hstep := confirmStep_fail_seat user now σ sid hu hseat
        rw [confirmLoop_cons_failed2 user now sid rest σ sid
            (by rw [hstep]),
          show (confirmStep user now σ sid).1 = σ from by rw [hstep]]
          at hst ⊢
        dsimp only at hst ⊢
        exact ih σ st hst
      | some st2 =>
        have hstep := confirmStep_ok_eq user now σ sid st2 hu hseat
        rw [confirmLoop_cons_ok2 user now sid rest σ
          { st2 with status := SeatStatus.booked, hold_expiry := none }
          (by rw [hstep])] at hst ⊢
        dsimp only at hst ⊢
        rcases List.mem_cons.mp hst with rfl | hst2
        · have hid2 : st2.id = sid := by
            have := List.find?_some hseat
            simpa using this
          have hmem1 :
              ({ st2 with status := SeatStatus.booked, hold_expiry := none }
                : Seat) ∈ (confirmStep user now σ sid).1.seats := by
            rw [hstep]
            dsimp only
            apply List.mem_of_find?_eq_some (p := fun s => s.id == sid)
            show seatGet (updateSeat σ.seats sid (fun s =>
                { s with status := SeatStatus.booked, hold_expiry := none }))
                sid =
              some { st2 with status := SeatStatus.booked, hold_expiry := none }
            rw [seatGet_updateSeat_self σ.seats sid
              (fun s =>
                { s with status := SeatStatus.booked, hold_expiry := none })
              (fun s => rfl), hseat]
            rfl
          have hlock1 : redisGet (confirmStep user now σ sid).1.locks now
              ({ st2 with status := SeatStatus.booked, hold_expiry := none }
                : Seat).id = none := by
            rw [hstep]
            dsimp only
            show redisGet (redisDelete σ.locks sid) now st2.id = none
            rw [hid2]
            exact redisGet_delete_self σ.locks now sid
          exact ⟨(confirmLoop_no_lock_preserved user now rest
            (confirmStep user now σ sid).1 _ hmem1 hlock1).1, rfl⟩
        · exact ih (confirmStep user now σ sid).1 st hst2
    · have hstep := confirmStep_fail_lock user now σ sid hu
      rw [confirmLoop_cons_failed2 user now sid rest σ sid
          (by rw [hstep]),
        show (confirmStep user now σ sid).1 = σ from by rw [hstep]]
        at hst ⊢
      dsimp only at hst ⊢
      exact ih σ st hst

theorem confirmLoop_length (user now : Nat) (ids : List Nat)
    (σ : BookingState) :
    (confirmLoop user now ids σ).2.1.length +
      (confirmLoop user now ids σ).2.2.length = ids.length := by
  induction ids generalizing σ with
  | nil => rfl
  | cons sid rest ih =>
    cases hres : (confirmStep user now σ sid).2 with
    | ok stc =>
      rw [confirmLoop_cons_ok2 user now sid rest σ stc hres]
      dsimp only
      simp only [List.length_cons]
      have := ih (confirmStep user now σ sid).1
      omega
    | failed s =>
      rw [confirmLoop_cons_failed2 user now sid rest σ s hres]
      dsimp only
      simp only [List.length_cons]
      have := ih (confirmStep user now σ sid).1
      omega

/-- C8: in `/confirm`, a seat whose lock is not currently owned by the
calling principal, or which does not exist, is recorded as failed with
no mutation at all; an owned existing seat transitions to booked with
`hold_expiry` cleared, a confirmed booking owned by the caller is
appended, and its lock is released, with all other seats and lock keys
untouched.  The returned state is the loop's final state committed once
after the whole list, exactly one booked broadcast per confirmed seat
is emitted, every requested id is processed exactly once, and partial
success is reported (failed ids listed next to confirmed ones) rather
than rolled back: confirmed seats stay booked in the committed state. -/
theorem confirm_booking_spec (σ : BookingState) (ids : List Nat)
    (user now : Nat) (hne : ids ≠ []) :
    (∀ σ0 sid, redisGet σ0.locks now sid ≠ some user →
      confirmStep user now σ0 sid = (σ0, .failed sid)) ∧
    (∀ σ0 sid, redisGet σ0.locks now sid = some user →
      seatGet σ0.seats sid = none →
      confirmStep user now σ0 sid = (σ0, .failed sid)) ∧
    (∀ σ0 sid st, redisGet σ0.locks now sid = some user →
      seatGet σ0.seats sid = some st →
      (seatGet (confirmStep user now σ0 sid).1.seats sid =
        some { st with status := SeatStatus.booked, hold_expiry := none }) ∧
      (∀ sid2, sid2 ≠ sid →
        seatGet (confirmStep user now σ0 sid).1.seats sid2 =
          seatGet σ0.seats sid2) ∧
      ((confirmStep user now σ0 sid).1.bookings = σ0.bookings ++
        [⟨nextBookingId σ0.bookings, user, st.event_id, sid, .confirmed,
          now⟩]) ∧
      (redisGet (confirmStep user now σ0 sid).1.locks now sid = none) ∧
      (∀ k, k ≠ sid →
        redisGet (confirmStep user now σ0 sid).1.locks now k =
          redisGet σ0.locks now k) ∧
      ((confirmStep user now σ0 sid).2 =
        .ok { st with status := SeatStatus.booked, hold_expiry := none })) ∧
    ((confirm_booking σ ids user now).2.2 =
      (confirmLoop user now ids σ).1) ∧
    ((confirm_booking σ ids user now).2.1 =
      (confirmLoop user now ids σ).2.1.map (fun s =>
        ⟨s.event_id, s.id, s.seat_number, SeatStatus.booked, some user⟩)) ∧
    ((confirmLoop user now ids σ).2.1.length +
      (confirmLoop user now ids σ).2.2.length = ids.length) ∧
    ((confirmLoop user now ids σ).2.2 ≠ [] →
      ∃ m, (confirm_booking σ ids user now).1 = .resp false m
        ((confirmLoop user now ids σ).2.1.map Seat.id)
        (confirmLoop user now ids σ).2.2) ∧
    ((confirmLoop user now ids σ).2.2 = [] →
      ∃ m, (confirm_booking σ ids user now).1 = .resp true m
        ((confirmLoop user now ids σ).2.1.map Seat.id) []) ∧
    (∀ st ∈ (confirmLoop user now ids σ).2.1,
      st ∈ (confirm_booking σ ids user now).2.2.seats ∧
      st.status = SeatStatus.booked) := by
  have hnil : ids.isEmpty = false := by
    rcases ids with _ | ⟨a, r⟩
    · exact absurd rfl hne
    · rfl
  have hstate : (confirm_booking σ ids user now).2.2 =
      (confirmLoop user now ids σ).1 := by
    simp only [confirm_booking, hnil, Bool.false_eq_true, if_false]
    split_ifs <;> rfl
  have hbcast : (confirm_booking σ ids user now).2.1 =
      (confirmLoop user now ids σ).2.1.map (fun s =>
        ⟨s.event_id, s.id, s.seat_number, SeatStatus.booked,
          some user⟩) := by
    simp only [confirm_booking, hnil, Bool.false_eq_true, if_false]
    split_ifs <;> rfl
  refine ⟨fun σ0 sid h => confirmStep_fail_lock user now σ0 sid h,
    fun σ0 sid hg hs => confirmStep_fail_seat user now σ0 sid hg hs,
    ?_, hstate, hbcast, confirmLoop_length user now ids σ, ?_, ?_, ?_⟩
  · intro σ0 sid st hg hs
    have hstep := confirmStep_ok_eq user now σ0 sid st hg hs
    refine ⟨?_, ?_, ?_, ?_, ?_, ?_⟩
    · rw [hstep]
      dsimp only
      rw [seatGet_updateSeat_self σ0.seats sid
        (fun s => { s with status := .booked, hold_expiry := none })
        (fun s => rfl), hs]
      rfl
    · intro sid2 hsid2
      rw [hstep]
      dsimp only
      exact seatGet_updateSeat_ne σ0.seats sid sid2
        (fun s => { s with status := .booked, hold_expiry := none })
        (fun s => rfl) hsid2
    · rw [hstep]
    · rw [hstep]
      dsimp only
      exact redisGet_delete_self σ0.locks now sid
    · intro k hk
      rw [hstep]
      dsimp only
      exact redisGet_delete_ne σ0.locks now sid k hk
    · rw [hstep]
  · intro hfail
    refine ⟨"Confirmed " ++
      toString (confirmLoop user now ids σ).2.1.length ++
      " seat(s), failed " ++
      toString (confirmLoop user now ids σ).2.2.length, ?_⟩
    simp only [confirm_booking, hnil, Bool.false_eq_true, if_false]
    rw [if_pos (by simp [List.isEmpty_iff, hfail])]
  · intro hok
    refine ⟨"Successfully confirmed " ++
      toString (confirmLoop user now ids σ).2.1.length ++
      " booking(s)", ?_⟩
    simp only [confirm_booking, hnil, Bool.false_eq_true, if_false]
    rw [if_neg (by simp [List.isEmpty_iff, hok])]
  · intro st hst
    have hb := confirmLoop_confirmed_booked user now ids σ st hst
    rw [hstate]
    exact hb

/-- Concrete instance for `confirm_booking_spec`: user 1 confirms
`[1, 5]` while owning only the lock on seat 1; the committed state is
the loop's final state, and the two ids are processed once each (one
confirmed, one failed). -/
theorem confirm_booking_spec_witness :
    ((confirm_booking ⟨[⟨1, 7, "A1", .held, some 250⟩], [],
        [⟨1, 1, 280⟩]⟩ [1, 5] 1 0).2.2 =
      (confirmLoop 1 0 [1, 5]
        ⟨[⟨1, 7, "A1", .held, some 250⟩], [], [⟨1, 1, 280⟩]⟩).1) ∧
    ((confirmLoop 1 0 [1, 5]
        ⟨[⟨1, 7, "A1", .held, some 250⟩], [], [⟨1, 1, 280⟩]⟩).2.1.length +
      (confirmLoop 1 0 [1, 5]
        ⟨[⟨1, 7, "A1", .held, some 250⟩], [],
          [⟨1, 1, 280⟩]⟩).2.2.length = 2) := by
  have h := confirm_booking_spec
    ⟨[⟨1, 7, "A1", .held, some 250⟩], [], [⟨1, 1, 280⟩]⟩ [1, 5] 1 0
    (by decide)
  exact ⟨h.2.2.2.1, h.2.2.2.2.2.1⟩
